import Mathlib

/-!
Verification of the MBTI chat-analysis program (`src/mbti.py`).

The development shallowly embeds the pure logic of the source file:

* `parse_line_chat_dynamic` — the chat-log parser (source lines 57–106);
* `align_scores_with_mbti`  — the score/type reconciliation (lines 28–48);
* `tool_calculate_compatibility` — the pairwise score (lines 109–117),
  over a value type `PyVal` that distinguishes numeric from non-numeric
  entries so that the `try/except` path is visible;
* the JSON extraction of `run_dynamic_analysis` (lines 226–234) together
  with the `"results"`-key validation performed at its call site (line 355);
* the tool-dispatch portion of `chat_response_generator` (lines 277–299).

Python strings are modelled as `List Char` (Unicode code points), which is
also how Python indexes/splits strings; machine integers are `Int`.  The
float expression `100 - diff_sum * 0.25` is exact in IEEE double for the
magnitudes reachable here and truncation by `int(...)` is toward zero, so it
is embedded as `(400 - diff_sum).tdiv 4`.
-/

/-! ## Generic character-list utilities (Python string operations) -/

/-- Python `needle in hay` (substring containment) on code-point lists. -/
def containsSub (needle hay : List Char) : Bool :=
  (List.range (hay.length + 1)).any (fun i => needle.isPrefixOf (hay.drop i))

/-- Python `s.split(c)` for a one-character separator: splits at every
occurrence, keeping empty fields. -/
def splitChar (c : Char) : List Char → List (List Char)
  | [] => [[]]
  | x :: xs =>
    if x = c then [] :: splitChar c xs
    else
      match splitChar c xs with
      | [] => [[x]]
      | h :: t => (x :: h) :: t

/-- Split off the part of `l` before the first occurrence of `c`; `none`
when `c` does not occur. -/
def breakChar (c : Char) : List Char → Option (List Char × List Char)
  | [] => none
  | x :: xs =>
    if x = c then some ([], xs)
    else (breakChar c xs).map (fun p => (x :: p.1, p.2))

/-- Python `s.split(' ', 2)`: at most two splits, remainder kept whole. -/
def splitSpaceMax2 (l : List Char) : List (List Char) :=
  match breakChar ' ' l with
  | none => [l]
  | some (a, rest) =>
    match breakChar ' ' rest with
    | none => [a, rest]
    | some (b, rest2) => [a, b, rest2]

/-- The whitespace set stripped by Python `str.strip()` (ASCII part). -/
def pyWhitespace (c : Char) : Bool :=
  c = ' ' ∨ c = '\t' ∨ c = '\n' ∨ c = '\r' ∨ c = '\x0b' ∨ c = '\x0c'

/-- Python `s.strip()`. -/
def trimChars (l : List Char) : List Char :=
  ((l.dropWhile pyWhitespace).reverse.dropWhile pyWhitespace).reverse

/-- Fuel-driven worker for `removeAll`; the fuel bounds the number of scan
steps, one unit per consumed character. -/
def removeAllAux (pat : List Char) : Nat → List Char → List Char
  | 0, l => l
  | _ + 1, [] => []
  | fuel + 1, x :: xs =>
    if pat ≠ [] ∧ pat.isPrefixOf (x :: xs) then
      removeAllAux pat fuel ((x :: xs).drop pat.length)
    else
      x :: removeAllAux pat fuel xs

/-- Python `s.replace(pat, "")`: delete every (left-to-right,
non-overlapping) occurrence of `pat`. -/
def removeAll (pat l : List Char) : List Char :=
  removeAllAux pat l.length l

/-- Python `"\n".join(...)` on code-point lists. -/
def joinNL (ms : List (List Char)) : List Char :=
  List.intercalate ['\n'] ms

/-! ## ScoreAligner: `align_scores_with_mbti` (src/mbti.py lines 28–48) -/

/-- One dimension of the alignment: `if low in mbti: min(v, 45)
elif high in mbti: max(v, 55)` with the score otherwise unchanged. -/
def alignDim (low high : Char) (mbti : List Char) (v : Int) : Int :=
  if mbti.contains low then min v 45
  else if mbti.contains high then max v 55
  else v

/-- `align_scores_with_mbti(mbti_type, raw_scores)`: the fallback
`[50, 50, 50, 50]` is produced when the type string is falsy (empty) or the
score list does not have exactly four entries; otherwise each positional
score is clamped against the letter pair of its dimension, testing
membership in the upper-cased type string. -/
def align_scores_with_mbti (mbti_type : String) (raw_scores : List Int) : List Int :=
  if mbti_type = "" then [50, 50, 50, 50]
  else
    match raw_scores with
    | [e, s, t, j] =>
      let mbti := mbti_type.data.map Char.toUpper
      [alignDim 'I' 'E' mbti e, alignDim 'S' 'N' mbti s,
       alignDim 'T' 'F' mbti t, alignDim 'J' 'P' mbti j]
    | _ => [50, 50, 50, 50]

/-! ## CompatibilityScorer: `tool_calculate_compatibility` (lines 109–117) -/

/-- A Python value reaching the scorer: a number, or something non-numeric
(whose subtraction raises `TypeError`). -/
inductive PyVal where
  | num (n : Int)
  | nonnum
  deriving DecidableEq, Repr

/-- `abs(a - b)` for one zipped pair; raises (`Except.error`) unless both
entries are numeric. -/
def pairDiff : PyVal × PyVal → Except Unit Int
  | (PyVal.num a, PyVal.num b) => Except.ok |a - b|
  | _ => Except.error ()

/-- The `for a, b in zip(...)` accumulation of `diff_sum`; the first
non-numeric pair aborts the whole computation, as the raised `TypeError`
does in the source. -/
def sumDiffs : List (PyVal × PyVal) → Except Unit Int
  | [] => Except.ok 0
  | p :: ps =>
    match pairDiff p with
    | Except.error e => Except.error e
    | Except.ok d =>
      match sumDiffs ps with
      | Except.error e => Except.error e
      | Except.ok rest => Except.ok (d + rest)

/-- `tool_calculate_compatibility(scores_a, scores_b)`.  `zip` truncates to
the shorter input; `int(100 - diff_sum * 0.25)` is the toward-zero
truncation `(400 - diff_sum).tdiv 4`; any exception yields `50`. -/
def tool_calculate_compatibility (scores_a scores_b : List PyVal) : Int :=
  match sumDiffs (scores_a.zip scores_b) with
  | Except.ok d => max 10 (min 99 ((400 - d).tdiv 4))
  | Except.error _ => 50

/-- The formula stated by the specification for the scorer: the sum of
absolute per-dimension differences, `score = 100 - 0.25 * sum` truncated to
an integer, clamped to `[10, 99]`. -/
def compat_formula (a b : List Int) : Int :=
  let s := (List.zipWith (fun x y => |x - y|) a b).sum
  max 10 (min 99 ((400 - s).tdiv 4))

/-! ## LogParser: `parse_line_chat_dynamic` (src/mbti.py lines 57–106) -/

/-- The system-message substrings skipped by the parser. -/
def skip_keywords : List String :=
  ["通話時間", "Call time", "Unsend message", "已收回訊息",
   "joined the chat", "invite", "加入聊天", "invited", "邀請"]

/-- Speaker names that are dropped as system noise. -/
def invalid_names : List String :=
  ["You", "you", "System", "Monday", "Tuesday", "Wednesday", "Thursday",
   "Friday", "Saturday", "Sunday"]

/-- The regex `^\d{1,2}:\d{2}$` of line 89: one or two digits, a colon, and
exactly two digits.  Note that it checks only the *shape* — there is no
range restriction on the hour or minute values. -/
def timeShape (t : List Char) : Bool :=
  match t with
  | [a, c, b1, b2] => a.isDigit && c = ':' && b1.isDigit && b2.isDigit
  | [a1, a2, c, b1, b2] =>
    a1.isDigit && a2.isDigit && c = ':' && b1.isDigit && b2.isDigit
  | _ => false

/-- The two-strategy field split of lines 74–80: tab split first, falling
back to a two-space split (`line.split(' ', 2)`) when the tab split yields
fewer than three fields.  Operates on the stripped line. -/
def lineParts (raw : List Char) : List (List Char) :=
  let line := trimChars raw
  let parts := splitChar '\t' line
  if parts.length < 3 then splitSpaceMax2 line else parts

/-- The `" Photos"` / `" Stickers"` suffix cleanup of lines 93–94; note the
source removes *every* occurrence of the suffix string via `str.replace`. -/
def cleanName (name : List Char) : List Char :=
  let n1 := if " Photos".data.isSuffixOf name then removeAll " Photos".data name else name
  if " Stickers".data.isSuffixOf n1 then removeAll " Stickers".data n1 else n1

/-- The per-line accept/reject decision of the parser loop body
(lines 70–102): `none` when the line is blank, yields fewer than three
fields, fails the timestamp shape test, matches the message or name
denylists; otherwise the `(speaker, message)` pair that is accumulated. -/
def acceptedLine (raw : List Char) : Option (List Char × List Char) :=
  if trimChars raw = [] then none
  else
    match lineParts raw with
    | t :: n0 :: m0 :: _ =>
      let name0 := trimChars n0
      let msg := trimChars m0
      if timeShape t then
        let name := cleanName name0
        if skip_keywords.any (fun k => containsSub k.data msg) then none
        else if msg = "[Photos]".data ∨ msg = "[Stickers]".data then none
        else if invalid_names.any (fun s => s.data = name) then none
        else some (name, msg)
      else none
    | _ => none

/-- All `(speaker, message)` pairs accepted from the log, in encounter
order (`file_content.split('\n')` then the loop body on each line). -/
def acceptedPairs (content : String) : List (List Char × List Char) :=
  (splitChar '\n' content.data).filterMap acceptedLine

/-- `messages[name].append(msg)` with creation on first use: append the
message to the bucket of `name`, or open a new bucket at the end. -/
def appendMsg : List (List Char × List (List Char)) → List Char × List Char →
    List (List Char × List (List Char))
  | [], (n, m) => [(n, [m])]
  | (k, ms) :: rest, (n, m) =>
    if k = n then (k, ms ++ [m]) :: rest else (k, ms) :: appendMsg rest (n, m)

/-- The `messages` dictionary after the whole loop, as an insertion-ordered
association list. -/
def collect (ps : List (List Char × List Char)) : List (List Char × List (List Char)) :=
  ps.foldl appendMsg []

/-- `parse_line_chat_dynamic(file_content)`: buckets of accepted messages
per speaker, keeping only speakers with at least 3 messages, each joined by
newlines (line 105). -/
def parse_line_chat_dynamic (content : String) : List (String × String) :=
  ((collect (acceptedPairs content)).filter (fun b => decide (3 ≤ b.2.length))).map
    (fun b => (String.mk b.1, String.mk (joinNL b.2)))

/-- Dictionary lookup in the parser's result. -/
def plookup (A : String) : List (String × String) → Option String
  | [] => none
  | (k, v) :: r => if k = A then some v else plookup A r

/-- Association lookup in the intermediate `messages` dictionary. -/
def bfind (A : List Char) : List (List Char × List (List Char)) → Option (List (List Char))
  | [] => none
  | (k, v) :: r => if k = A then some v else bfind A r

/-- The keys of the intermediate dictionary. -/
def keysOf (b : List (List Char × List (List Char))) : List (List Char) :=
  b.map Prod.fst

/-- The accepted messages attributed to speaker `A`, in encounter order. -/
def msgsOf (A : List Char) (ps : List (List Char × List Char)) : List (List Char) :=
  (ps.filter (fun p => decide (p.1 = A))).map Prod.snd

/-- Modelled from the spec: a timestamp that is "a valid `H:MM` or `HH:MM`
clock time with hour 0–23 and two-digit minute 00–59", the validity notion
the claims ascribe to the parser (the source checks only `timeShape`). -/
def spec_valid_clock (t : List Char) : Bool :=
  match t with
  | [a, c, b1, b2] =>
    a.isDigit && c = ':' && b1.isDigit && b2.isDigit &&
      decide ((b1.toNat - '0'.toNat) * 10 + (b2.toNat - '0'.toNat) ≤ 59)
  | [a1, a2, c, b1, b2] =>
    a1.isDigit && a2.isDigit && c = ':' && b1.isDigit && b2.isDigit &&
      decide ((a1.toNat - '0'.toNat) * 10 + (a2.toNat - '0'.toNat) ≤ 23) &&
      decide ((b1.toNat - '0'.toNat) * 10 + (b2.toNat - '0'.toNat) ≤ 59)
  | _ => false

/-! ## ResponseExtractor: the JSON extraction of `run_dynamic_analysis`
(src/mbti.py lines 226–234) and the `"results"` validation of its call
site (line 355). -/

/-- The JSON values produced by `json.loads`.  Number tokens are kept as
their validated lexemes; nothing in the program inspects their numeric
value before the stages modelled here. -/
inductive JValue where
  | jnull
  | jbool (b : Bool)
  | jnum (lexeme : List Char)
  | jstr (s : List Char)
  | jarr (items : List JValue)
  | jobj (fields : List (List Char × JValue))

/-- JSON inter-token whitespace. -/
def skipWs : List Char → List Char
  | [] => []
  | c :: cs =>
    if c = ' ' ∨ c = '\t' ∨ c = '\n' ∨ c = '\r' then skipWs cs else c :: cs

/-- Value of a hexadecimal digit. -/
def hexVal (c : Char) : Option Nat :=
  if '0' ≤ c ∧ c ≤ '9' then some (c.toNat - '0'.toNat)
  else if 'a' ≤ c ∧ c ≤ 'f' then some (c.toNat - 'a'.toNat + 10)
  else if 'A' ≤ c ∧ c ≤ 'F' then some (c.toNat - 'A'.toNat + 10)
  else none

/-- The one-character JSON string escapes. -/
def escChar (c : Char) : Option Char :=
  if c = '"' then some '"'
  else if c = '\\' then some '\\'
  else if c = '/' then some '/'
  else if c = 'b' then some '\x08'
  else if c = 'f' then some '\x0c'
  else if c = 'n' then some '\n'
  else if c = 'r' then some '\r'
  else if c = 't' then some '\t'
  else none

/-- Body of a JSON string, after the opening quote: decoded characters and
the rest of the input past the closing quote.  Unescaped control
characters are rejected, as by `json.loads` in strict mode. -/
def parseStringRest : List Char → Option (List Char × List Char)
  | [] => none
  | c :: cs =>
    if c = '"' then some ([], cs)
    else if c = '\\' then
      match cs with
      | [] => none
      | e :: cs2 =>
        match escChar e with
        | some ec => (parseStringRest cs2).map (fun p => (ec :: p.1, p.2))
        | none =>
          if e = 'u' then
            match cs2 with
            | h1 :: h2 :: h3 :: h4 :: cs3 =>
              match hexVal h1, hexVal h2, hexVal h3, hexVal h4 with
              | some v1, some v2, some v3, some v4 =>
                (parseStringRest cs3).map
                  (fun p => (Char.ofNat (((v1 * 16 + v2) * 16 + v3) * 16 + v4) :: p.1, p.2))
              | _, _, _, _ => none
            | _ => none
          else none
    else if c.toNat < 32 then none
    else (parseStringRest cs).map (fun p => (c :: p.1, p.2))

/-- Take a non-empty run of decimal digits. -/
def takeDigits1 (l : List Char) : Option (List Char × List Char) :=
  let ds := l.takeWhile Char.isDigit
  if ds = [] then none else some (ds, l.drop ds.length)

/-- The optional exponent part of a JSON number token; when no well-formed
exponent follows, the token ends before it (as with the `json` module's
number regex). -/
def parseExpPart (lex : List Char) (l : List Char) : Option (List Char × List Char) :=
  match l with
  | e :: r =>
    if e = 'e' ∨ e = 'E' then
      let (es, r1) :=
        match r with
        | '+' :: r2 => (['+'], r2)
        | '-' :: r2 => (['-'], r2)
        | _ => (([] : List Char), r)
      match takeDigits1 r1 with
      | some (xs, r2) => some (lex ++ e :: es ++ xs, r2)
      | none => some (lex, l)
    else some (lex, l)
  | [] => some (lex, l)

/-- A JSON number token, `-? (0 | [1-9][0-9]*) frac? exp?`, returned as its
lexeme together with the remaining input.  Like the `json` module's number
regex, a leading zero ends the integer part and a dangling `.` or `e` is
left as trailing input rather than rejected here. -/
def parseNumber (l : List Char) : Option (List Char × List Char) :=
  let (sign, l1) :=
    match l with
    | '-' :: rest => (['-'], rest)
    | _ => (([] : List Char), l)
  match takeDigits1 l1 with
  | none => none
  | some (ds, l2) =>
    let (ipart, l2a) :=
      if ds.headI = '0' ∧ ds.length > 1 then (['0'], l1.drop 1) else (ds, l2)
    let (frac, l3) :=
      match l2a with
      | '.' :: r =>
        match takeDigits1 r with
        | some (fs, r2) => ('.' :: fs, r2)
        | none => (([] : List Char), l2a)
      | _ => (([] : List Char), l2a)
    parseExpPart (sign ++ ipart ++ frac) l3

mutual

/-- A JSON value, fuel-indexed: `json.loads`'s recursive-descent parse of
one value starting at `l`, returning the value and the remaining input. -/
def parseValue : Nat → List Char → Option (JValue × List Char)
  | 0, _ => none
  | fuel + 1, l =>
    match skipWs l with
    | [] => none
    | c :: rest =>
      if c = '\x7b' then
        match skipWs rest with
        | c2 :: rest2 =>
          if c2 = '\x7d' then some (JValue.jobj [], rest2)
          else
            match parseMembers fuel (c2 :: rest2) with
            | some (fields, r) => some (JValue.jobj fields, r)
            | none => none
        | [] => none
      else if c = '[' then
        match skipWs rest with
        | c2 :: rest2 =>
          if c2 = ']' then some (JValue.jarr [], rest2)
          else
            match parseItems fuel (c2 :: rest2) with
            | some (items, r) => some (JValue.jarr items, r)
            | none => none
        | [] => none
      else if c = '"' then
        match parseStringRest rest with
        | some (s, r) => some (JValue.jstr s, r)
        | none => none
      else if "true".data.isPrefixOf (c :: rest) then
        some (JValue.jbool true, (c :: rest).drop 4)
      else if "false".data.isPrefixOf (c :: rest) then
        some (JValue.jbool false, (c :: rest).drop 5)
      else if "null".data.isPrefixOf (c :: rest) then
        some (JValue.jnull, (c :: rest).drop 4)
      else
        match parseNumber (c :: rest) with
        | some (lex, r) => some (JValue.jnum lex, r)
        | none => none

/-- The members of a JSON object, positioned at the first key. -/
def parseMembers : Nat → List Char → Option (List (List Char × JValue) × List Char)
  | 0, _ => none
  | fuel + 1, l =>
    match skipWs l with
    | c :: rest =>
      if c = '"' then
        match parseStringRest rest with
        | some (key, r1) =>
          match skipWs r1 with
          | c2 :: r2 =>
            if c2 = ':' then
              match parseValue fuel r2 with
              | some (v, r3) =>
                match skipWs r3 with
                | c3 :: r4 =>
                  if c3 = ',' then
                    match parseMembers fuel r4 with
                    | some (fields, r5) => some ((key, v) :: fields, r5)
                    | none => none
                  else if c3 = '\x7d' then some ([(key, v)], r4)
                  else none
                | [] => none
              | none => none
            else none
          | [] => none
        | none => none
      else none
    | [] => none

/-- The items of a JSON array, positioned at the first item. -/
def parseItems : Nat → List Char → Option (List JValue × List Char)
  | 0, _ => none
  | fuel + 1, l =>
    match parseValue fuel l with
    | some (v, r1) =>
      match skipWs r1 with
      | c :: r2 =>
        if c = ',' then
          match parseItems fuel r2 with
          | some (items, r3) => some (v :: items, r3)
          | none => none
        else if c = ']' then some ([v], r2)
        else none
      | [] => none
    | none => none

end

/-- `json.loads(s)`: parse one value and require only whitespace after it;
`none` models the raised `JSONDecodeError`. -/
def json_loads (s : List Char) : Option JValue :=
  match parseValue (s.length + 1) s with
  | some (v, rest) => if skipWs rest = [] then some v else none
  | none => none

/-- `re.search(r'\{.*\}', text, re.DOTALL)` of line 229: the greedy match
spans from the first `\x7b` to the last `\x7d` of the whole text, provided
the latter comes after the former. -/
def firstBraceSpan (l : List Char) : Option (List Char) :=
  match l.findIdx? (fun c => c = '\x7b'), l.reverse.findIdx? (fun c => c = '\x7d') with
  | some i, some k =>
    let j := l.length - 1 - k
    if i < j then some ((l.drop i).take (j - i + 1)) else none
  | _, _ => none

/-- The extraction step of `run_dynamic_analysis` (lines 229–233): regex
match, then `json.loads` on the matched span; `none` on no match, and the
surrounding bare `except` turns a parse failure into `None` as well. -/
def run_dynamic_analysis_extract (content : String) : Option JValue :=
  match firstBraceSpan content.data with
  | some span => json_loads span
  | none => none

/-- Python truthiness of a parsed JSON value (`if result_json`,
line 355). -/
def jTruthy : JValue → Bool
  | JValue.jobj fields => !fields.isEmpty
  | JValue.jarr items => !items.isEmpty
  | JValue.jstr s => !s.isEmpty
  | JValue.jbool b => b
  | JValue.jnull => false
  | JValue.jnum lex =>
    !(lex.takeWhile (fun c => c ≠ 'e' ∧ c ≠ 'E')).all
      (fun c => c = '0' ∨ c = '.' ∨ c = '-' ∨ c = '+')

/-- `"results" in result_json` (line 355). -/
def hasResultsKey : JValue → Bool
  | JValue.jobj fields => fields.any (fun kv => kv.1 = "results".data)
  | _ => false

/-- The whole ResponseExtractor outcome: the extraction of
`run_dynamic_analysis` combined with the truthiness and `"results"`-key
validation at its only call site (line 355); `none` is the uniform
"analysis failed" absence value. -/
def response_extract (content : String) : Option JValue :=
  match run_dynamic_analysis_extract content with
  | some j => if jTruthy j && hasResultsKey j then some j else none
  | none => none

/-! ## ToolRouter: the dispatch portion of `chat_response_generator`
(src/mbti.py lines 277–299). -/

/-- A per-speaker profile held in `context_data["analysis_results"]`. -/
structure Profile where
  name : String
  scores : List PyVal
  deriving Repr

/-- The chart confirmation message (lines 280–283). -/
def chartMsg (chinese : Bool) (n : Nat) : String :=
  if chinese then "已為 " ++ toString n ++ " 位成員生成圖表（見上方）。"
  else "Chart generated for " ++ toString n ++ " participants (see above)."

/-- The compatibility result message (lines 291–294). -/
def compatMsg (chinese : Bool) (n1 n2 : String) (score : Int) : String :=
  if chinese then
    "經計算，" ++ n1 ++ " 與 " ++ n2 ++ " 的契合度為：**" ++ toString score ++ " 分**。"
  else
    "Calculated match score between " ++ n1 ++ " and " ++ n2 ++ ": **" ++
      toString score ++ "/100**."

/-- The fixed decline message for a profile count other than two
(line 296). -/
def declineMsg : String :=
  "Compatibility scores are only available for pairs. Please select exactly two people."

/-- The tool dispatch of `chat_response_generator` on the model reply
`content`: the chart marker is checked first (line 278), then the
compatibility marker (line 286) gated on exactly two profiles; with
neither marker the reply is returned verbatim. -/
def chat_response_dispatch (content : String) (results : List Profile)
    (chinese : Bool) : String :=
  if containsSub "tool_generate_bipolar_chart".data content.data then
    chartMsg chinese results.length
  else if containsSub "tool_calculate_compatibility".data content.data then
    match results with
    | [p1, p2] =>
      compatMsg chinese p1.name p2.name (tool_calculate_compatibility p1.scores p2.scores)
    | _ => declineMsg
  else content

/-! ## Helper lemmas -/

theorem mk_data_eq (s : String) : String.mk s.data = s := by
  cases s
  rfl

theorem data_append_eq (s t : String) : (s ++ t).data = s.data ++ t.data := by
  cases s
  cases t
  rfl

theorem isPrefixOf_append_self (l r : List Char) : l.isPrefixOf (l ++ r) = true := by
  induction l with
  | nil => simp [List.isPrefixOf]
  | cons c t ih => simp [List.isPrefixOf, ih]

theorem containsSub_middle (n x y : List Char) : containsSub n (x ++ (n ++ y)) = true := by
  unfold containsSub
  rw [List.any_eq_true]
  refine ⟨x.length, ?_, ?_⟩
  · rw [List.mem_range]
    simp [List.length_append]
    omega
  · rw [List.drop_left]
    exact isPrefixOf_append_self n y

theorem contains_perm {l₁ l₂ : List Char} (p : l₁.Perm l₂) (x : Char) :
    l₁.contains x = l₂.contains x := by
  have h := p.mem_iff (a := x)
  by_cases hx : x ∈ l₁
  · have hx2 : x ∈ l₂ := h.mp hx
    simp [List.contains, List.elem_iff, hx, hx2]
  · have hx2 : x ∉ l₂ := fun hh => hx (h.mpr hh)
    simp [List.contains, List.elem_iff, hx, hx2]

theorem alignDim_perm {m₁ m₂ : List Char} (hp : m₁.Perm m₂) (low high : Char) (v : Int) :
    alignDim low high m₁ v = alignDim low high m₂ v := by
  unfold alignDim
  rw [contains_perm hp, contains_perm hp]

theorem sumDiffs_num (a : List Int) : ∀ b : List Int,
    sumDiffs ((a.map PyVal.num).zip (b.map PyVal.num)) =
      Except.ok ((List.zipWith (fun x y => |x - y|) a b).sum) := by
  induction a with
  | nil => intro b; simp [sumDiffs]
  | cons x xs ih =>
    intro b
    cases b with
    | nil => simp [sumDiffs]
    | cons y ys =>
      simp only [List.map_cons, List.zip_cons_cons, List.zipWith_cons_cons,
        List.sum_cons, sumDiffs, pairDiff]
      have hxs := ih ys
      simp only [List.zip] at hxs
      rw [hxs]

theorem sumDiffs_error (ps : List (PyVal × PyVal))
    (h : ∃ p ∈ ps, p.1 = PyVal.nonnum ∨ p.2 = PyVal.nonnum) :
    sumDiffs ps = Except.error () := by
  induction ps with
  | nil => simp at h
  | cons p ps ih =>
    rcases h with ⟨q, hq, hbad⟩
    rcases List.mem_cons.mp hq with rfl | hmem
    · rcases hbad with h1 | h2
      · rcases q with ⟨x, y⟩
        cases x with
        | num n => simp at h1
        | nonnum => simp [sumDiffs, pairDiff]
      · rcases q with ⟨x, y⟩
        cases y with
        | num n => simp at h2
        | nonnum =>
          cases x with
          | num m => simp [sumDiffs, pairDiff]
          | nonnum => simp [sumDiffs, pairDiff]
    · have herr := ih ⟨q, hmem, hbad⟩
      unfold sumDiffs
      rw [herr]
      cases pairDiff p <;> rfl

/-! ## Claim C2 -/

/-- C2: for every valid four-letter MBTI code (one letter per dimension,
case-insensitive, so its upper-cased character list is `[l0, l1, l2, l3]`
with `l0 ∈ E/I`, `l1 ∈ S/N`, `l2 ∈ T/F`, `l3 ∈ J/P`) and every 4-element
score vector with entries in `[0, 100]`, each aligned score is at most 45
when the code's letter for that dimension is the low-pole letter
(I, S, T, J) and at least 55 when it is the high-pole letter (E, N, F, P);
in particular `align_scores_with_mbti "ENTJ" [10, 10, 10, 10]` is
`[55, 55, 10, 10]`. -/
theorem C2_align_respects_letters (code : String) (l0 l1 l2 l3 : Char)
    (hcode : code.data.map Char.toUpper = [l0, l1, l2, l3])
    (h0 : l0 = 'E' ∨ l0 = 'I') (h1 : l1 = 'S' ∨ l1 = 'N')
    (h2 : l2 = 'T' ∨ l2 = 'F') (h3 : l3 = 'J' ∨ l3 = 'P')
    (a b c d : Int) (ha : 0 ≤ a ∧ a ≤ 100) (hb : 0 ≤ b ∧ b ≤ 100)
    (hc : 0 ≤ c ∧ c ≤ 100) (hd : 0 ≤ d ∧ d ≤ 100) :
    (∃ o0 o1 o2 o3, align_scores_with_mbti code [a, b, c, d] = [o0, o1, o2, o3] ∧
      ((l0 = 'I' → o0 ≤ 45) ∧ (l0 = 'E' → 55 ≤ o0)) ∧
      ((l1 = 'S' → o1 ≤ 45) ∧ (l1 = 'N' → 55 ≤ o1)) ∧
      ((l2 = 'T' → o2 ≤ 45) ∧ (l2 = 'F' → 55 ≤ o2)) ∧
      ((l3 = 'J' → o3 ≤ 45) ∧ (l3 = 'P' → 55 ≤ o3))) ∧
    align_scores_with_mbti "ENTJ" [10, 10, 10, 10] = [55, 55, 10, 10] := by
  have hne : code ≠ "" := by
    intro h
    subst h
    simp at hcode
  refine ⟨?_, by decide⟩
  unfold align_scores_with_mbti
  rw [if_neg hne]
  simp only [hcode]
  refine ⟨_, _, _, _, rfl, ?_, ?_, ?_, ?_⟩ <;>
    rcases h0 with rfl | rfl <;> rcases h1 with rfl | rfl <;>
    rcases h2 with rfl | rfl <;> rcases h3 with rfl | rfl <;>
    constructor <;> intro hl <;> simp_all [alignDim] <;> omega

/-- C2 witness: the theorem applied to code `"ENTJ"` and scores
`[10, 10, 10, 10]`. -/
theorem C2_align_respects_letters_witness :
    align_scores_with_mbti "ENTJ" [10, 10, 10, 10] = [55, 55, 10, 10] :=
  (C2_align_respects_letters "ENTJ" 'E' 'N' 'T' 'J' (by decide)
    (Or.inl rfl) (Or.inr rfl) (Or.inl rfl) (Or.inl rfl)
    10 10 10 10 (by decide) (by decide) (by decide) (by decide)).2

/-! ## Claim C3 -/

/-- C3: for 4-element integer score vectors with entries in `[0, 100]` the
scorer returns the truncation of `100 - 0.25 * Σ|aᵢ - bᵢ|` clamped into
`[10, 99]` (the `compat_formula`), the result always lies in `[10, 99]`
(never 0 or negative), identical vectors `[50, 50, 50, 50]` score 99, and
`[0, 0, 0, 0]` against `[100, 100, 100, 100]` scores 10. -/
theorem C3_compat_formula_correct (a b : List Int)
    (ha : a.length = 4) (hb : b.length = 4)
    (har : ∀ x ∈ a, 0 ≤ x ∧ x ≤ 100) (hbr : ∀ x ∈ b, 0 ≤ x ∧ x ≤ 100) :
    tool_calculate_compatibility (a.map PyVal.num) (b.map PyVal.num) = compat_formula a b ∧
    10 ≤ compat_formula a b ∧ compat_formula a b ≤ 99 ∧
    tool_calculate_compatibility ([50, 50, 50, 50].map PyVal.num)
      ([50, 50, 50, 50].map PyVal.num) = 99 ∧
    tool_calculate_compatibility ([0, 0, 0, 0].map PyVal.num)
      ([100, 100, 100, 100].map PyVal.num) = 10 := by
  refine ⟨?_, ?_, ?_, by decide, by decide⟩
  · unfold tool_calculate_compatibility compat_formula
    rw [sumDiffs_num]
  · exact le_max_left _ _
  · exact max_le (by norm_num) (min_le_left _ _)

/-- C3 witness: the theorem applied to the identical pair
`[50, 50, 50, 50]`. -/
theorem C3_compat_formula_correct_witness :
    tool_calculate_compatibility ([50, 50, 50, 50].map PyVal.num)
      ([50, 50, 50, 50].map PyVal.num) = compat_formula [50, 50, 50, 50] [50, 50, 50, 50] :=
  (C3_compat_formula_correct [50, 50, 50, 50] [50, 50, 50, 50]
    rfl rfl (by decide) (by decide)).1

/-! ## Claim C4 -/

/-- C4 counterexample: the claim says a type code "of a length other than
four letters" yields the neutral fallback `[50, 50, 50, 50]`, but the
source only tests falsiness (`not mbti_type`): the one-letter code `"E"`
is processed normally and yields `[55, 10, 10, 10]`. -/
theorem C4_counterexample :
    align_scores_with_mbti "E" [10, 10, 10, 10] = [55, 10, 10, 10] ∧
    align_scores_with_mbti "E" [10, 10, 10, 10] ≠ [50, 50, 50, 50] := by
  constructor <;> decide

/-- C4 amended: the neutral fallback `[50, 50, 50, 50]` is returned exactly
when the type code is missing/empty or when the score vector does not have
exactly four elements; a non-empty code of any other length is still
processed letter-by-letter. -/
theorem C4_fallback_conditions (c : String) (s : List Int) :
    (c = "" → align_scores_with_mbti c s = [50, 50, 50, 50]) ∧
    (s.length ≠ 4 → align_scores_with_mbti c s = [50, 50, 50, 50]) := by
  constructor
  · rintro rfl
    simp [align_scores_with_mbti]
  · intro h
    by_cases hc : c = ""
    · simp [align_scores_with_mbti, hc]
    · rcases s with _ | ⟨a, _ | ⟨b, _ | ⟨x, _ | ⟨d, _ | ⟨e, t⟩⟩⟩⟩⟩ <;>
        simp_all [align_scores_with_mbti]

/-- C4 witness: the fallback at an empty code and at a 3-element score
vector. -/
theorem C4_fallback_conditions_witness :
    align_scores_with_mbti "" [1, 2, 3, 4] = [50, 50, 50, 50] ∧
    align_scores_with_mbti "ENTJ" [1, 2, 3] = [50, 50, 50, 50] :=
  ⟨(C4_fallback_conditions "" [1, 2, 3, 4]).1 rfl,
   (C4_fallback_conditions "ENTJ" [1, 2, 3]).2 (by decide)⟩

/-! ## Claim C5 -/

/-- C5 counterexample: the claim says score vectors of the wrong arity
yield the fallback 50, but `zip` silently truncates: a 3-element versus a
4-element vector computes a score over the 3 zipped pairs, here 25. -/
theorem C5_counterexample :
    tool_calculate_compatibility ([0, 0, 0].map PyVal.num)
      ([100, 100, 100, 100].map PyVal.num) = 25 ∧
    tool_calculate_compatibility ([0, 0, 0].map PyVal.num)
      ([100, 100, 100, 100].map PyVal.num) ≠ 50 := by
  constructor <;> decide

/-- C5 amended: a non-numeric entry in any zipped pair makes the scorer
return the fixed fallback 50 (the `TypeError` is swallowed, nothing is
raised — the function is total); wrong-arity inputs are *not* rejected:
the score is computed over the element-wise common prefix. -/
theorem C5_nonnumeric_fallback (sa sb : List PyVal)
    (h : ∃ p ∈ sa.zip sb, p.1 = PyVal.nonnum ∨ p.2 = PyVal.nonnum) :
    tool_calculate_compatibility sa sb = 50 := by
  unfold tool_calculate_compatibility
  rw [sumDiffs_error _ h]

/-- C5 witness: a non-numeric first entry yields 50. -/
theorem C5_nonnumeric_fallback_witness :
    tool_calculate_compatibility [PyVal.nonnum] [PyVal.num 3] = 50 :=
  C5_nonnumeric_fallback [PyVal.nonnum] [PyVal.num 3] (by decide)

/-! ## Claim C10 -/

/-- C10: the aligner's output depends only on the multiset of characters of
the code — permuting the code's characters never changes the result (for
any score vector; the claim's 4-element restriction is the hypothesis
`hs`). -/
theorem C10_align_letter_set_invariant (c c' : String) (s : List Int)
    (hc : c ≠ "") (hperm : c.data.Perm c'.data) (hs : s.length = 4) :
    align_scores_with_mbti c s = align_scores_with_mbti c' s := by
  have hc' : c' ≠ "" := by
    intro h
    subst h
    have hnil : c.data = [] := hperm.eq_nil
    exact hc (by rw [← mk_data_eq c, hnil])
  unfold align_scores_with_mbti
  rw [if_neg hc, if_neg hc']
  have hp : (c.data.map Char.toUpper).Perm (c'.data.map Char.toUpper) :=
    hperm.map Char.toUpper
  rcases s with _ | ⟨a, _ | ⟨b, _ | ⟨x, _ | ⟨d, _ | ⟨e, t⟩⟩⟩⟩⟩ <;>
    simp [alignDim_perm hp]

/-- C10 witness: `"JTNE"` (a permutation of `"ENTJ"`) aligns
`[10, 10, 10, 10]` exactly as `"ENTJ"` does. -/
theorem C10_align_letter_set_invariant_witness :
    align_scores_with_mbti "ENTJ" [10, 10, 10, 10] =
      align_scores_with_mbti "JTNE" [10, 10, 10, 10] :=
  C10_align_letter_set_invariant "ENTJ" "JTNE" [10, 10, 10, 10]
    (by decide) (by decide) rfl

/-! ## Parser bucket lemmas -/

theorem msgsOf_cons (A n : List Char) (m : List Char) (ps : List (List Char × List Char)) :
    msgsOf A ((n, m) :: ps) = if n = A then m :: msgsOf A ps else msgsOf A ps := by
  unfold msgsOf
  rw [List.filter_cons]
  by_cases h : n = A <;> simp [h]

theorem bfind_appendMsg (acc : List (List Char × List (List Char)))
    (n m : List Char) (A : List Char) :
    bfind A (appendMsg acc (n, m)) =
      if n = A then some ((bfind A acc).getD [] ++ [m]) else bfind A acc := by
  induction acc with
  | nil =>
    by_cases h : n = A <;> simp [appendMsg, bfind, h]
  | cons b r ih =>
    rcases b with ⟨k, ms⟩
    simp only [appendMsg]
    by_cases hkn : k = n
    · subst hkn
      by_cases hA : k = A <;> simp [bfind, hA]
    · rw [if_neg hkn]
      simp only [bfind]
      by_cases hA : k = A
      · have hnA : ¬(n = A) := fun h => hkn (hA.trans h.symm)
        simp [hA, hnA]
      · simp [hA, ih]

theorem bfind_foldl (ps : List (List Char × List Char)) :
    ∀ (acc : List (List Char × List (List Char))) (A : List Char),
      bfind A (ps.foldl appendMsg acc) =
        if msgsOf A ps = [] then bfind A acc
        else some ((bfind A acc).getD [] ++ msgsOf A ps) := by
  induction ps with
  | nil =>
    intro acc A
    simp [msgsOf]
  | cons p ps ih =>
    intro acc A
    rcases p with ⟨n, m⟩
    rw [List.foldl_cons, ih (appendMsg acc (n, m)) A, bfind_appendMsg, msgsOf_cons]
    by_cases hnA : n = A
    · simp only [if_pos hnA]
      by_cases he : msgsOf A ps = []
      · simp [he]
      · simp [he, List.append_assoc]
    · simp only [if_neg hnA]

theorem bfind_none_of_not_mem (A : List Char)
    (b : List (List Char × List (List Char))) (h : A ∉ keysOf b) :
    bfind A b = none := by
  induction b with
  | nil => rfl
  | cons p r ih =>
    rcases p with ⟨k, v⟩
    simp only [keysOf, List.map_cons, List.mem_cons] at h
    push_neg at h
    simp only [bfind]
    rw [if_neg (fun hh => h.1 hh.symm)]
    exact ih (by simpa [keysOf] using h.2)

theorem keysOf_appendMsg (acc : List (List Char × List (List Char)))
    (n m : List Char) :
    keysOf (appendMsg acc (n, m)) =
      if n ∈ keysOf acc then keysOf acc else keysOf acc ++ [n] := by
  induction acc with
  | nil => simp [appendMsg, keysOf]
  | cons b r ih =>
    rcases b with ⟨k, ms⟩
    by_cases hkn : k = n
    · subst hkn
      simp [appendMsg, keysOf]
    · have hnk : ¬(n = k) := fun h => hkn h.symm
      simp only [appendMsg, if_neg hkn, keysOf, List.map_cons, List.mem_cons]
      simp only [keysOf] at ih
      by_cases hm : n ∈ List.map Prod.fst r <;> simp [hm, hnk, ih]

theorem nodup_keys_foldl (ps : List (List Char × List Char)) :
    ∀ (acc : List (List Char × List (List Char))),
      (keysOf acc).Nodup → (keysOf (ps.foldl appendMsg acc)).Nodup := by
  induction ps with
  | nil =>
    intro acc h
    exact h
  | cons p ps ih =>
    intro acc h
    rcases p with ⟨n, m⟩
    rw [List.foldl_cons]
    apply ih
    rw [keysOf_appendMsg]
    by_cases hm : n ∈ keysOf acc
    · simpa [hm] using h
    · rw [if_neg hm, (List.perm_append_singleton n (keysOf acc)).nodup_iff]
      exact List.nodup_cons.mpr ⟨hm, h⟩

theorem plookup_filter_map (buckets : List (List Char × List (List Char)))
    (A : String) (h : (keysOf buckets).Nodup) :
    plookup A ((buckets.filter (fun b => decide (3 ≤ b.2.length))).map
        (fun b => (String.mk b.1, String.mk (joinNL b.2)))) =
      match bfind A.data buckets with
      | some ms => if 3 ≤ ms.length then some (String.mk (joinNL ms)) else none
      | none => none := by
  induction buckets with
  | nil => simp [plookup, bfind]
  | cons b r ih =>
    rcases b with ⟨k, ms⟩
    have hcons : (k :: keysOf r).Nodup := h
    have hk : k ∉ keysOf r := (List.nodup_cons.mp hcons).1
    have hr : (keysOf r).Nodup := (List.nodup_cons.mp hcons).2
    by_cases hkA : k = A.data
    · by_cases hlen : 3 ≤ ms.length
      · have hmk : String.mk k = A := by rw [hkA, mk_data_eq]
        simp [List.filter_cons, hlen, plookup, bfind, hkA, hmk]
      · have hnone : bfind A.data r = none :=
          bfind_none_of_not_mem _ _ (by rw [← hkA]; exact hk)
        simp [List.filter_cons, hlen, bfind, hkA, ih hr, hnone]
    · have hmkA : String.mk k ≠ A := by
        intro hh
        exact hkA (by rw [← congrArg String.data hh])
      by_cases hlen : 3 ≤ ms.length <;>
        simp [List.filter_cons, hlen, plookup, bfind, hkA, hmkA, ih hr]

/-- The central characterization of the parser: speaker `A`'s transcript is
present exactly when at least 3 lines were accepted for `A`, and then it is
exactly `A`'s accepted messages, in encounter order, joined by newlines. -/
theorem parse_characterization (content : String) (A : String) :
    plookup A (parse_line_chat_dynamic content) =
      if 3 ≤ (msgsOf A.data (acceptedPairs content)).length then
        some (String.mk (joinNL (msgsOf A.data (acceptedPairs content))))
      else none := by
  unfold parse_line_chat_dynamic collect
  rw [plookup_filter_map _ _ (nodup_keys_foldl _ [] (by simp [keysOf]))]
  rw [bfind_foldl]
  by_cases he : msgsOf A.data (acceptedPairs content) = []
  · simp [he, bfind]
  · simp [he, bfind]

/-! ## Claim C1 -/

/-- C1 counterexample: the claim requires hour 0–23 and minute 00–59, but
the source's regex checks only the digit shape.  `"99:99"` is not a valid
clock time, yet three lines stamped `99:99` produce a transcript for
`Alice` — the lines do contribute to a speaker's transcript. -/
theorem C1_counterexample :
    spec_valid_clock ("99:99".data) = false ∧
    plookup "Alice" (parse_line_chat_dynamic
      "99:99 Alice hi\n99:99 Alice yo\n99:99 Alice ok") = some "hi\nyo\nok" := by
  constructor
  · decide
  · decide

/-- C1 amended: a candidate triple is accepted only if its timestamp field
matches the *shape* one-or-two digits, colon, two digits (`timeShape`, the
source's `^\d{1,2}:\d{2}$`), with no range check on hour or minute; a line
whose timestamp field fails that shape is accepted for no speaker, and any
accepted line has a shape-valid timestamp field. -/
theorem C1_timestamp_shape (raw : List Char) :
    (∀ t rest, lineParts raw = t :: rest → timeShape t = false →
      acceptedLine raw = none) ∧
    (∀ p, acceptedLine raw = some p →
      ∃ t rest, lineParts raw = t :: rest ∧ timeShape t = true) := by
  constructor
  · intro t rest hp ht
    unfold acceptedLine
    by_cases hemp : trimChars raw = []
    · simp [hemp]
    · rw [if_neg hemp, hp]
      rcases rest with _ | ⟨n0, _ | ⟨m0, tail⟩⟩
      · rfl
      · rfl
      · simp [ht]
  · intro p hp
    unfold acceptedLine at hp
    by_cases hemp : trimChars raw = []
    · rw [if_pos hemp] at hp
      exact absurd hp (by simp)
    · rw [if_neg hemp] at hp
      cases hl : lineParts raw with
      | nil => rw [hl] at hp; exact absurd hp (by simp)
      | cons t rest =>
        cases rest with
        | nil => rw [hl] at hp; exact absurd hp (by simp)
        | cons n0 rest2 =>
          cases rest2 with
          | nil => rw [hl] at hp; exact absurd hp (by simp)
          | cons m0 tail =>
            rw [hl] at hp
            refine ⟨t, n0 :: m0 :: tail, rfl, ?_⟩
            by_cases ht : timeShape t = true
            · exact ht
            · rw [Bool.not_eq_true] at ht
              simp [ht] at hp

/-- C1 witness: a line whose first field `9:9` fails the shape is rejected,
and an accepted line (`10:00 A hi`) has a shape-valid first field. -/
theorem C1_timestamp_shape_witness :
    acceptedLine ("9:9 A hi".data) = none ∧
    (∃ t rest, lineParts ("10:00 A hi".data) = t :: rest ∧ timeShape t = true) :=
  ⟨(C1_timestamp_shape _).1 ("9:9".data) ["A".data, "hi".data] (by decide) (by decide),
   (C1_timestamp_shape _).2 ("A".data, "hi".data) (by decide)⟩

/-! ## Claim C8 -/

/-- C8: for any log and any speakers `A ≠ B` each with at least 3 accepted
lines, `A`'s transcript is exactly `A`'s accepted messages — the pairs of
`acceptedPairs` whose speaker field is `A`, which by construction include
no line attributed to `B` — in their original encounter order, joined by
newline characters. -/
theorem C8_transcript_exact (content : String) (A B : String) (hAB : A ≠ B)
    (hA : 3 ≤ (msgsOf A.data (acceptedPairs content)).length)
    (hB : 3 ≤ (msgsOf B.data (acceptedPairs content)).length) :
    plookup A (parse_line_chat_dynamic content) =
      some (String.mk (joinNL (msgsOf A.data (acceptedPairs content)))) := by
  rw [parse_characterization, if_pos hA]

/-- C8 witness: an interleaved Alice/Bob log with three lines each; Alice's
transcript is her three messages in order, joined by newlines, with none of
Bob's. -/
theorem C8_transcript_exact_witness :
    plookup "Alice" (parse_line_chat_dynamic
      "10:00 Alice a1\n10:01 Bob b1\n10:02 Alice a2\n10:03 Bob b2\n10:04 Alice a3\n10:05 Bob b3") =
      some "a1\na2\na3" :=
  (C8_transcript_exact _ "Alice" "Bob" (by decide) (by decide) (by decide)).trans
    (by decide)

/-! ## Claim C9 -/

/-- C9: the pruning threshold is exactly 3 — a speaker with exactly 2
accepted lines is absent from the parser's output, and one with exactly 3
accepted lines is present. -/
theorem C9_threshold_boundary (content : String) (A : String) :
    ((msgsOf A.data (acceptedPairs content)).length = 2 →
      plookup A (parse_line_chat_dynamic content) = none) ∧
    ((msgsOf A.data (acceptedPairs content)).length = 3 →
      ∃ t, plookup A (parse_line_chat_dynamic content) = some t) := by
  constructor
  · intro h2
    rw [parse_characterization, if_neg (by omega)]
  · intro h3
    exact ⟨_, by rw [parse_characterization, if_pos (by omega)]⟩

/-- C9 witness: in a log where `Ann` has 2 accepted lines and `Cara` has 3,
`Ann` is pruned and `Cara` is kept. -/
theorem C9_threshold_boundary_witness :
    plookup "Ann" (parse_line_chat_dynamic
      "10:00 Ann x\n10:01 Ann y\n10:02 Cara c1\n10:03 Cara c2\n10:04 Cara c3") = none ∧
    ∃ t, plookup "Cara" (parse_line_chat_dynamic
      "10:00 Ann x\n10:01 Ann y\n10:02 Cara c1\n10:03 Cara c2\n10:04 Cara c3") = some t :=
  ⟨(C9_threshold_boundary _ "Ann").1 (by decide),
   (C9_threshold_boundary _ "Cara").2 (by decide)⟩

/-! ## Claim C6 -/

/-- C6: every failure stage of the ResponseExtractor — no brace-delimited
match in the reply, a matched span that is not valid JSON, or a parsed
object failing the `"results"` validation — yields the single uniform
absence value `none`; the pipeline is a total function, so no exception
escapes. -/
theorem C6_extract_failure_uniform (content : String) :
    (firstBraceSpan content.data = none → response_extract content = none) ∧
    (∀ s, firstBraceSpan content.data = some s → json_loads s = none →
      response_extract content = none) ∧
    (∀ j, run_dynamic_analysis_extract content = some j → hasResultsKey j = false →
      response_extract content = none) := by
  refine ⟨?_, ?_, ?_⟩
  · intro h
    simp [response_extract, run_dynamic_analysis_extract, h]
  · intro s hs hj
    simp [response_extract, run_dynamic_analysis_extract, hs, hj]
  · intro j hj hk
    simp [response_extract, hj, hk]

/-- C6 witness: the three failure stages at concrete replies — no brace at
all, a brace span that is not JSON, and a JSON object without a
`"results"` key — each produce `none`. -/
theorem C6_extract_failure_uniform_witness :
    response_extract "The analysis could not be completed." = none ∧
    response_extract "\x7b broken \x7d" = none ∧
    response_extract "\x7b\"foo\": 1\x7d" = none :=
  ⟨(C6_extract_failure_uniform _).1 (by rfl),
   (C6_extract_failure_uniform _).2.1 ("\x7b broken \x7d".data) (by rfl) (by rfl),
   (C6_extract_failure_uniform _).2.2 (JValue.jobj [("foo".data, JValue.jnum ['1'])])
     (by rfl) (by rfl)⟩

/-! ## Claim C7 -/

theorem containsSub_of_exists (n hay : List Char)
    (h : ∃ x y, hay = x ++ (n ++ y)) : containsSub n hay = true := by
  rcases h with ⟨x, y, rfl⟩
  exact containsSub_middle n x y

theorem compat_in_range (sa sb : List PyVal) :
    10 ≤ tool_calculate_compatibility sa sb ∧ tool_calculate_compatibility sa sb ≤ 99 := by
  unfold tool_calculate_compatibility
  cases sumDiffs (sa.zip sb) with
  | error e => constructor <;> norm_num
  | ok d => exact ⟨le_max_left _ _, max_le (by norm_num) (min_le_left _ _)⟩

theorem compatMsg_contains_names (chinese : Bool) (n1 n2 : String) (s : Int) :
    containsSub n1.data (compatMsg chinese n1 n2 s).data = true ∧
    containsSub n2.data (compatMsg chinese n1 n2 s).data = true := by
  cases chinese
  · constructor
    · exact containsSub_of_exists _ _
        ⟨"Calculated match score between ".data,
         " and ".data ++ (n2.data ++ (": **".data ++ ((toString s).data ++ "/100**.".data))),
         by simp [compatMsg, data_append_eq, List.append_assoc]⟩
    · exact containsSub_of_exists _ _
        ⟨"Calculated match score between ".data ++ (n1.data ++ " and ".data),
         ": **".data ++ ((toString s).data ++ "/100**.".data),
         by simp [compatMsg, data_append_eq, List.append_assoc]⟩
  · constructor
    · exact containsSub_of_exists _ _
        ⟨"經計算，".data,
         " 與 ".data ++ (n2.data ++ (" 的契合度為：**".data ++ ((toString s).data ++ " 分**。".data))),
         by simp [compatMsg, data_append_eq, List.append_assoc]⟩
    · exact containsSub_of_exists _ _
        ⟨"經計算，".data ++ (n1.data ++ " 與 ".data),
         " 的契合度為：**".data ++ ((toString s).data ++ " 分**。".data),
         by simp [compatMsg, data_append_eq, List.append_assoc]⟩

/-- C7 counterexample: the claim promises the compatibility path whenever
the reply contains the compatibility marker, but the chart marker is
checked first — a reply containing both markers with exactly two profiles
returns the chart confirmation, which names neither participant. -/
theorem C7_counterexample :
    containsSub "tool_calculate_compatibility".data
      "tool_generate_bipolar_chart tool_calculate_compatibility".data = true ∧
    chat_response_dispatch "tool_generate_bipolar_chart tool_calculate_compatibility"
      [⟨"Alice", [PyVal.num 50]⟩, ⟨"Bob", [PyVal.num 60]⟩] false =
      "Chart generated for 2 participants (see above)." ∧
    containsSub "Alice".data
      ("Chart generated for 2 participants (see above).".data) = false := by
  refine ⟨by decide, by decide, by decide⟩

/-- C7 amended: whenever the reply contains the compatibility marker *and
not the chart marker* (the router checks the chart marker first), then with
exactly two profiles it returns the compatibility message built from
`tool_calculate_compatibility` on their raw score vectors — a message
containing both participants' names and a score in `[10, 99]` — and with
any other profile count it returns the fixed decline message and performs
no scoring. -/
theorem C7_compat_routing (content : String) (results : List Profile) (chinese : Bool)
    (hc : containsSub "tool_calculate_compatibility".data content.data = true)
    (hnc : containsSub "tool_generate_bipolar_chart".data content.data = false) :
    (∀ p1 p2, results = [p1, p2] →
      ∃ s : Int, s = tool_calculate_compatibility p1.scores p2.scores ∧
        10 ≤ s ∧ s ≤ 99 ∧
        chat_response_dispatch content results chinese = compatMsg chinese p1.name p2.name s ∧
        containsSub p1.name.data (chat_response_dispatch content results chinese).data = true ∧
        containsSub p2.name.data (chat_response_dispatch content results chinese).data = true) ∧
    (results.length ≠ 2 → chat_response_dispatch content results chinese = declineMsg) := by
  constructor
  · rintro p1 p2 rfl
    have hd : chat_response_dispatch content [p1, p2] chinese =
        compatMsg chinese p1.name p2.name (tool_calculate_compatibility p1.scores p2.scores) := by
      simp [chat_response_dispatch, hnc, hc]
    refine ⟨tool_calculate_compatibility p1.scores p2.scores, rfl,
      (compat_in_range _ _).1, (compat_in_range _ _).2, hd, ?_, ?_⟩
    · rw [hd]
      exact (compatMsg_contains_names _ _ _ _).1
    · rw [hd]
      exact (compatMsg_contains_names _ _ _ _).2
  · intro hlen
    rcases results with _ | ⟨p1, _ | ⟨p2, _ | ⟨p3, t⟩⟩⟩
    · simp [chat_response_dispatch, hnc, hc]
    · simp [chat_response_dispatch, hnc, hc]
    · simp at hlen
    · simp [chat_response_dispatch, hnc, hc]

/-- C7 witness: with the compatibility marker alone, three profiles get the
decline message, and two profiles get a compatibility message with a score
in `[10, 99]`. -/
theorem C7_compat_routing_witness :
    chat_response_dispatch "TOOL_CALL: tool_calculate_compatibility"
      [⟨"Alice", []⟩, ⟨"Bob", []⟩, ⟨"Cara", []⟩] false = declineMsg ∧
    ∃ s : Int, chat_response_dispatch "TOOL_CALL: tool_calculate_compatibility"
      [⟨"Alice", [PyVal.num 50, PyVal.num 50, PyVal.num 50, PyVal.num 50]⟩,
       ⟨"Bob", [PyVal.num 60, PyVal.num 40, PyVal.num 50, PyVal.num 50]⟩] false =
        compatMsg false "Alice" "Bob" s ∧ 10 ≤ s ∧ s ≤ 99 := by
  constructor
  · exact (C7_compat_routing _ _ _ (by decide) (by decide)).2 (by decide)
  · obtain ⟨s, _, h10, h99, hd, _, _⟩ :=
      (C7_compat_routing "TOOL_CALL: tool_calculate_compatibility" _ false
        (by decide) (by decide)).1 _ _ rfl
    exact ⟨s, hd, h10, h99⟩
